import Mathlib

/-!
Verification development for the APDP retail-chain management tool
(`src/app.py`). The file embeds the record store (`CSVLoader.load_data`,
`save_data`, `DataLoaderFactory.create_loader`), the two mutating commands
(`AddBranchCommand.execute`, `AddSaleCommand.execute`) and the five
aggregation functions (`monthly_sales_analysis`, `price_analysis`,
`weekly_sales_analysis`, `total_sales_amount_analysis`,
`all_branches_monthly_sales_analysis`) as executable Lean definitions, and
proves or refutes the specification's claims about them.
-/

/-- Python exceptions that the embedded code can raise: `StopIteration` from
`next(reader)` on a row-less file, `ValueError("Unsupported file type")` from
the loader factory, `KeyError` from a dict lookup, `ValueError` from `int()`
on a malformed string, and the `ValueError` raised by unpacking
`zip(*monthly_sales.items())` on an empty dict. -/
inductive PyError where
  | stopIteration
  | unsupportedFile
  | keyError
  | valueError
  | unpackError
deriving DecidableEq, Repr

/-- Content of a durable CSV container: `none` models a file that does not
exist on disk; `some rows` models an existing file holding exactly `rows`
(header row included whenever one was written). -/
abbrev FileContent := Option (List (List String))

/-- Embedding of `CSVLoader.load_data` (src/app.py lines 25-33): a missing
file yields `[]`; on an existing file `next(reader)` skips the first row
(raising `StopIteration` when the file has no rows at all) and the remaining
rows are returned in file order. -/
def CSVLoader.load_data : FileContent → Except PyError (List (List String))
  | none => .ok []
  | some [] => .error .stopIteration
  | some (_ :: rows) => .ok rows

/-- Embedding of `save_data` (src/app.py lines 131-137): the file is opened in
append mode (which creates it when absent); the header row is written only
when the file did not exist and `headers` is truthy (not `None` and not the
empty list); then the data rows are appended in the given order after
whatever the file already held. -/
def save_data (file : FileContent) (data : List (List String))
    (headers : Option (List String)) : FileContent :=
  match file with
  | some rows => some (rows ++ data)
  | none =>
    match headers with
    | some h => if h.isEmpty then some data else some (h :: data)
    | none => some data

/-- Model of Python's `str.endswith`: the candidate suffix's characters are a
suffix of the string's characters. -/
def pyEndsWith (s suffix : String) : Bool := suffix.data.isSuffixOf s.data

/-- Embedding of `DataLoaderFactory.create_loader` (src/app.py lines 36-48): a
file name ending in one of the four known container suffixes resolves to the
CSV loading strategy (identified here by the file name it will read); any
other name raises `ValueError("Unsupported file type")`. -/
def DataLoaderFactory.create_loader (file_name : String) : Except PyError String :=
  if pyEndsWith file_name "users.csv" then .ok file_name
  else if pyEndsWith file_name "branches.csv" then .ok file_name
  else if pyEndsWith file_name "products.csv" then .ok file_name
  else if pyEndsWith file_name "sales.csv" then .ok file_name
  else .error .unsupportedFile

/-- Embedding of the `load_data` utility (src/app.py lines 126-128): resolve a
loader through the factory, then read the resolved file from the file system
`fs` (a map from file name to durable content). -/
def load_data (fs : String → FileContent) (file_name : String) :
    Except PyError (List (List String)) :=
  match DataLoaderFactory.create_loader file_name with
  | .error e => .error e
  | .ok n => CSVLoader.load_data (fs n)

/-- Header row of the branches container (src/app.py line 70). -/
def BRANCHES_HEADERS : List String := ["Branch ID", "Branch Name", "Location"]

/-- Header row of the sales container (src/app.py line 87). -/
def SALES_HEADERS : List String := ["Branch ID", "Product ID", "Amount Sold", "Date"]

/-- Embedding of `AddBranchCommand.execute` (src/app.py lines 58-72) acting on
the branches file: load every persisted branch row, append the newly
constructed `[branch_id, branch_name, location]` row to that in-memory list,
and hand the whole list to `save_data` together with the branch headers.
Returns the container's new durable content. -/
def AddBranchCommand.execute (file : FileContent)
    (branch_id branch_name location : String) : Except PyError FileContent := do
  let branches ← CSVLoader.load_data file
  let branches := branches ++ [[branch_id, branch_name, location]]
  pure (save_data file branches (some BRANCHES_HEADERS))

/-- Embedding of `AddSaleCommand.execute` (src/app.py lines 75-89) acting on
the sales file: load every persisted sale row, append the newly constructed
`[branch_id, product_id, amount_sold, date]` row (the date string is stamped
from `datetime.now()`), and hand the whole list to `save_data` together with
the sale headers. -/
def AddSaleCommand.execute (file : FileContent)
    (branch_id product_id amount_sold date : String) : Except PyError FileContent := do
  let sales ← CSVLoader.load_data file
  let sales := sales ++ [[branch_id, product_id, amount_sold, date]]
  pure (save_data file sales (some SALES_HEADERS))

/-- Numeric value of a nonempty all-digit character list, `none` otherwise
(helper for the `int()` model). -/
def digitsToNat? (l : List Char) : Option Nat :=
  if l ≠ [] ∧ l.all Char.isDigit then
    some (l.foldl (fun a c => a * 10 + (c.toNat - 48)) 0)
  else none

/-- Model of Python's `int(s)` on a string: an optional sign followed by at
least one digit parses to the signed value; anything else raises
`ValueError`, modelled as `none`. -/
def pyInt (s : String) : Option Int :=
  match s.data with
  | '-' :: rest => (digitsToNat? rest).map (fun n => -(n : Int))
  | '+' :: rest => (digitsToNat? rest).map (fun n => (n : Int))
  | l => (digitsToNat? l).map (fun n => (n : Int))

/-- Splitting a character list at every dash, the groups in order (helper for
the `strptime` model). -/
def splitOnDash : List Char → List (List Char)
  | [] => [[]]
  | c :: rest =>
    if c = '-' then [] :: splitOnDash rest
    else
      match splitOnDash rest with
      | [] => [[c]]
      | g :: gs => (c :: g) :: gs

/-- Gregorian leap-year rule, as in Python's `calendar.isleap`. -/
def isLeapYear (y : Nat) : Bool :=
  y % 4 = 0 && (y % 100 ≠ 0 || y % 400 = 0)

/-- Number of days of month `m` (1-12) in year `y`. -/
def daysInMonth (y m : Nat) : Nat :=
  if m = 2 then (if isLeapYear y then 29 else 28)
  else if m = 4 ∨ m = 6 ∨ m = 9 ∨ m = 11 then 30
  else 31

/-- Days of year `y` that precede the first of month `m`. -/
def daysBeforeMonth (y m : Nat) : Nat :=
  ((List.range (m - 1)).map (fun i => daysInMonth y (i + 1))).sum

/-- Python's `date(y, m, d).toordinal()`: proleptic-Gregorian ordinal with
0001-01-01 (a Monday) as day 1. -/
def toOrdinal (y m d : Nat) : Nat :=
  365 * (y - 1) + (y - 1) / 4 - (y - 1) / 100 + (y - 1) / 400 +
    daysBeforeMonth y m + d

/-- Model of `datetime.strptime(s, '%Y-%m-%d')`, reduced to the ordinal of
the parsed calendar day: CPython matches `%Y` as exactly four digits and
`%m`/`%d` as one or two digits, then validates the calendar date (year at
least `MINYEAR` = 1, month 1-12, day within the month); anything else raises
`ValueError`, modelled as `none`. -/
def pyStrptime (s : String) : Option Nat :=
  match splitOnDash s.data with
  | [ys, ms, ds] =>
    match digitsToNat? ys, digitsToNat? ms, digitsToNat? ds with
    | some y, some m, some d =>
      if ys.length = 4 ∧ ms.length ≤ 2 ∧ ds.length ≤ 2 ∧
          1 ≤ y ∧ 1 ≤ m ∧ m ≤ 12 ∧ 1 ≤ d ∧ d ≤ daysInMonth y m then
        some (toOrdinal y m d)
      else none
    | _, _, _ => none
  | _ => none

/-- A Sale row `[branch_id, product_id, amount_sold, date]` as the aggregators
read it: all four fields keep their raw string form; in particular the date
field `sale[3]` stays unparsed, so a malformed date string faults exactly
where the source calls `datetime.strptime`. -/
structure Sale where
  branchId : String
  productId : String
  amountSold : String
  date : String
deriving DecidableEq, Repr

/-- A Branch row `[branch_id, branch_name, location]`; the aggregators read
only `branch[0]`. -/
structure Branch where
  branchId : String
  branchName : String
  location : String
deriving DecidableEq, Repr

/-- The list comprehension `[int(sale[2]) for sale in rows]`, applied after
filtering: parses the amount of each row left to right, raising `ValueError`
(modelled as `none`) at the first malformed amount. -/
def mapPyInt : List Sale → Option (List Int)
  | [] => some []
  | s :: rest =>
    match pyInt s.amountSold, mapPyInt rest with
    | some a, some as => some (a :: as)
    | _, _ => none

/-- Insertion of an integer into a sorted list (helper for the sort under the
`np.median` model). -/
def insertSorted (x : Int) : List Int → List Int
  | [] => [x]
  | y :: ys => if x ≤ y then x :: y :: ys else y :: insertSorted x ys

/-- Insertion sort on integers (the sort under the `np.median` model). -/
def sortInt : List Int → List Int
  | [] => []
  | x :: xs => insertSorted x (sortInt xs)

/-- Model of `np.mean` over a list of integers, as an exact rational. -/
def npMean (xs : List Int) : ℚ := (xs.sum : ℚ) / (xs.length : ℚ)

/-- Model of `np.max` over a nonempty list of integers (the `[]` case never
arises in the embedded code paths that use it). -/
def npMax : List Int → Int
  | [] => 0
  | x :: xs => xs.foldl max x

/-- Model of `np.min` over a nonempty list of integers. -/
def npMin : List Int → Int
  | [] => 0
  | x :: xs => xs.foldl min x

/-- Model of `np.median`: the middle element of the sorted list when the
length is odd, the average of the two central elements when it is even. -/
def npMedian (xs : List Int) : ℚ :=
  let s := sortInt xs
  let n := s.length
  if n % 2 = 1 then ((s.getD (n / 2) 0 : Int) : ℚ)
  else (((s.getD (n / 2 - 1) 0 + s.getD (n / 2) 0 : Int) : ℚ)) / 2

/-- Outcome of `monthly_sales_analysis`: either the "No sales data found"
message or the histogram drawn over the filtered amounts. -/
inductive MonthlyResult where
  | noData
  | histogram (branchSales : List Int)
deriving DecidableEq, Repr

/-- Embedding of `monthly_sales_analysis` (src/app.py lines 152-167): keep the
Sale rows whose `sale[0]` equals the requested branch id, parse `int(sale[2])`
for exactly those rows (a malformed amount on a matching row raises
`ValueError`), report no-data when the filtered list is empty and otherwise
the histogram data. -/
def monthly_sales_analysis (sales : List Sale) (branch_id : String) :
    Except PyError MonthlyResult :=
  match mapPyInt (sales.filter (fun s => s.branchId == branch_id)) with
  | none => .error .valueError
  | some xs => if xs.isEmpty then .ok .noData else .ok (.histogram xs)

/-- Outcome of `price_analysis`: either the "No sales data found" message or
the four printed statistics (average, maximum, minimum, median). -/
inductive PriceResult where
  | noData
  | stats (average : ℚ) (maxPrice minPrice : Int) (median : ℚ)
deriving DecidableEq, Repr

/-- Embedding of `price_analysis` (src/app.py lines 170-195): keep the Sale
rows whose `sale[1]` equals the requested product id, parse their amounts,
report no-data when nothing matches, and otherwise `np.mean`, `np.max`,
`np.min` and `np.median` of the matching amounts. -/
def price_analysis (sales : List Sale) (product_id : String) :
    Except PyError PriceResult :=
  match mapPyInt (sales.filter (fun s => s.productId == product_id)) with
  | none => .error .valueError
  | some xs =>
    if xs.isEmpty then .ok .noData
    else .ok (.stats (npMean xs) (npMax xs) (npMin xs) (npMedian xs))

/-- The instant `datetime.today()` at which `weekly_sales_analysis` runs: the
proleptic-Gregorian ordinal of the calendar day, plus the seconds elapsed
since that day's midnight. -/
structure Now where
  day : Nat
  tod : Nat
deriving DecidableEq, Repr

/-- Python's `date.weekday()` on ordinal day `d`: 0 = Monday, ..., 6 = Sunday
(ordinal 1, the date 0001-01-01, is a Monday). -/
def weekday (d : Nat) : Nat := (d + 6) % 7

/-- Seconds from the epoch midnight to the instant. -/
def Now.seconds (t : Now) : Int := t.day * 86400 + t.tod

/-- The instant `start_of_week = today - timedelta(days=today.weekday())`
(src/app.py line 204), in seconds: subtracting whole days keeps the run's
time-of-day. -/
def weekStart (now : Now) : Int := now.seconds - weekday now.day * 86400

/-- The membership test of the comprehension on src/app.py lines 207-208:
`start_of_week <= datetime.strptime(sale[3], '%Y-%m-%d') <= end_of_week`,
where the parsed date is midnight of ordinal day `d` and
`end_of_week = start_of_week + timedelta(days=6)` (line 205). -/
def inWeek (now : Now) (d : Nat) : Bool :=
  decide (weekStart now ≤ (d : Int) * 86400 ∧
    (d : Int) * 86400 ≤ weekStart now + 6 * 86400)

/-- The comprehension on src/app.py lines 207-208, row by row: for every row
the condition first `strptime`-parses `sale[3]` — so a malformed date on any
row raises `ValueError`, whether or not the row would fall in the window —
and only for rows inside the window is `int(sale[2])` then evaluated. -/
def weeklyCollect (now : Now) : List Sale → Except PyError (List Int)
  | [] => .ok []
  | s :: rest =>
    match pyStrptime s.date with
    | none => .error .valueError
    | some d =>
      if inWeek now d then
        match pyInt s.amountSold with
        | none => .error .valueError
        | some a =>
          match weeklyCollect now rest with
          | .error e => .error e
          | .ok xs => .ok (a :: xs)
      else weeklyCollect now rest

/-- Embedding of `weekly_sales_analysis` (src/app.py lines 198-216): a Sale
row is kept when its parsed date lies between `start_of_week` and
`end_of_week`; the result is the total of the kept amounts and their
`np.mean`, with mean 0 when nothing is kept. -/
def weekly_sales_analysis (now : Now) (sales : List Sale) :
    Except PyError (Int × ℚ) :=
  match weeklyCollect now sales with
  | .error e => .error e
  | .ok xs => .ok (xs.sum, if xs.isEmpty then 0 else npMean xs)

/-- Embedding of `total_sales_amount_analysis` (src/app.py lines 220-225):
parse every row's amount — no filtering — and sum. -/
def total_sales_amount_analysis (sales : List Sale) : Except PyError Int :=
  match mapPyInt sales with
  | none => .error .valueError
  | some xs => .ok xs.sum

/-- Python dict assignment on an insertion-ordered association list: an
existing key keeps its position and takes the new value; a new key is
appended at the end. -/
def dictSet (acc : List (String × Int)) (k : String) (v : Int) :
    List (String × Int) :=
  match acc with
  | [] => [(k, v)]
  | (k', v') :: rest => if k' == k then (k, v) :: rest else (k', v') :: dictSet rest k v

/-- Python dict lookup on the association-list model: `none` is a `KeyError`. -/
def dictGet? (acc : List (String × Int)) (k : String) : Option Int :=
  match acc with
  | [] => none
  | (k', v) :: rest => if k' == k then some v else dictGet? rest k

/-- The accumulator `{branch[0]: 0 for branch in branches}` (src/app.py line
233), in dict insertion order. -/
def initAcc (branches : List Branch) : List (String × Int) :=
  branches.foldl (fun acc b => dictSet acc b.branchId 0) []

/-- One iteration of the `for sale in sales_data` loop (src/app.py lines
235-237): `monthly_sales[branch_id] += int(sale[2])` raises `KeyError` when
the sale's branch id is not a key of the accumulator — the lookup happens
before the amount is parsed — and `ValueError` when its amount is malformed. -/
def accumSale (acc : List (String × Int)) (s : Sale) :
    Except PyError (List (String × Int)) :=
  match dictGet? acc s.branchId with
  | none => .error .keyError
  | some v =>
    match pyInt s.amountSold with
    | none => .error .valueError
    | some a => .ok (dictSet acc s.branchId (v + a))

/-- The whole `for sale in sales_data` loop, stopping at the first raised
exception. -/
def accumSales (acc : List (String × Int)) : List Sale →
    Except PyError (List (String × Int))
  | [] => .ok acc
  | s :: rest =>
    match accumSale acc s with
    | .error e => .error e
    | .ok acc2 => accumSales acc2 rest

/-- Embedding of `all_branches_monthly_sales_analysis` (src/app.py lines
228-249): build the zero accumulator over the Branch container, fold the Sale
rows into it, then `zip(*monthly_sales.items())` — which raises a `ValueError`
unpacking error on an empty dict — yields the (branch_id, total) pairs in
dict insertion order. -/
def all_branches_monthly_sales_analysis (branches : List Branch)
    (sales : List Sale) : Except PyError (List (String × Int)) :=
  match accumSales (initAcc branches) sales with
  | .error e => .error e
  | .ok acc => if acc.isEmpty then .error .unpackError else .ok acc

/-- Total of the parsed amounts of the sales recorded against branch id `k`
(the intended meaning of the all-branches accumulator entry for `k`). -/
def totalFor (k : String) (sales : List Sale) : Int :=
  ((sales.filter (fun s => s.branchId == k)).map
    (fun s => (pyInt s.amountSold).getD 0)).sum

deriving instance DecidableEq for Except

/-! Helper lemmas about the record store. -/

/-- Appending to an absent container with a truthy header writes the header
first. -/
theorem save_none_cons (d : List (List String)) (h : List String) (hne : h ≠ []) :
    save_data none d (some h) = some (h :: d) := by
  cases h with
  | nil => exact absurd rfl hne
  | cons a t => rfl

/-- Appending to an existing container only appends the data rows. -/
theorem save_some (rows d : List (List String)) (hs : Option (List String)) :
    save_data (some rows) d hs = some (rows ++ d) := rfl

/-- Folding single-record appends over an existing container appends the
records in order. -/
theorem foldl_save_single (hs : Option (List String)) (rs : List (List String))
    (c : List (List String)) :
    rs.foldl (fun f r => save_data f [r] hs) (some c) = some (c ++ rs) := by
  induction rs generalizing c with
  | nil => simp
  | cons r rest ih =>
    simp only [List.foldl_cons, save_some, ih]
    simp

/-- Folding arbitrary append batches over an existing container concatenates
their rows in order, never writing a header. -/
theorem foldl_save_batches
    (batches : List (List (List String) × Option (List String)))
    (c : List (List String)) :
    batches.foldl (fun f b => save_data f b.1 b.2) (some c) =
      some (c ++ (batches.map Prod.fst).flatten) := by
  induction batches generalizing c with
  | nil => simp
  | cons b rest ih =>
    simp only [List.foldl_cons, save_some, ih]
    simp

/-- The factory hands back the very file name it resolved. -/
theorem create_loader_ok_eq (file_name m : String)
    (h : DataLoaderFactory.create_loader file_name = .ok m) : m = file_name := by
  unfold DataLoaderFactory.create_loader at h
  split_ifs at h <;> simp_all

/-! Helper lemmas about amount parsing. -/

/-- When every row in a list has a well-formed amount, the parsing
comprehension succeeds. -/
theorem mapPyInt_some_of_forall (l : List Sale)
    (h : ∀ s ∈ l, (pyInt s.amountSold).isSome) : ∃ xs, mapPyInt l = some xs := by
  induction l with
  | nil => exact ⟨[], rfl⟩
  | cons s rest ih =>
    obtain ⟨a, ha⟩ := Option.isSome_iff_exists.mp (h s (by simp))
    obtain ⟨xs, hxs⟩ := ih (fun t ht => h t (by simp [ht]))
    exact ⟨a :: xs, by simp [mapPyInt, ha, hxs]⟩

/-- The per-branch aggregator cannot fault when every matching row parses. -/
theorem monthly_isOk (sales : List Sale) (branch_id : String)
    (h : ∀ s ∈ sales, s.branchId = branch_id → (pyInt s.amountSold).isSome) :
    (monthly_sales_analysis sales branch_id).isOk = true := by
  obtain ⟨xs, hxs⟩ :=
    mapPyInt_some_of_forall (sales.filter (fun s => s.branchId == branch_id))
      (by
        intro s hs
        rw [List.mem_filter] at hs
        exact h s hs.1 (by simpa using hs.2))
  unfold monthly_sales_analysis
  rw [hxs]
  cases xs <;> rfl

/-- The per-product aggregator cannot fault when every matching row parses. -/
theorem price_isOk (sales : List Sale) (product_id : String)
    (h : ∀ s ∈ sales, s.productId = product_id → (pyInt s.amountSold).isSome) :
    (price_analysis sales product_id).isOk = true := by
  obtain ⟨xs, hxs⟩ :=
    mapPyInt_some_of_forall (sales.filter (fun s => s.productId == product_id))
      (by
        intro s hs
        rw [List.mem_filter] at hs
        exact h s hs.1 (by simpa using hs.2))
  unfold price_analysis
  rw [hxs]
  cases xs <;> rfl

/-- The grand-total aggregator cannot fault when every row parses. -/
theorem total_isOk (sales : List Sale)
    (h : ∀ s ∈ sales, (pyInt s.amountSold).isSome) :
    (total_sales_amount_analysis sales).isOk = true := by
  obtain ⟨xs, hxs⟩ := mapPyInt_some_of_forall sales h
  unfold total_sales_amount_analysis
  rw [hxs]
  rfl

/-- The weekly comprehension succeeds when every row's date and amount are
well-formed. -/
theorem weeklyCollect_ok (now : Now) (l : List Sale)
    (hd : ∀ s ∈ l, (pyStrptime s.date).isSome)
    (ha : ∀ s ∈ l, (pyInt s.amountSold).isSome) :
    ∃ xs, weeklyCollect now l = .ok xs := by
  induction l with
  | nil => exact ⟨[], rfl⟩
  | cons s rest ih =>
    obtain ⟨d, hdd⟩ := Option.isSome_iff_exists.mp (hd s (by simp))
    obtain ⟨a, haa⟩ := Option.isSome_iff_exists.mp (ha s (by simp))
    obtain ⟨xs, hxs⟩ :=
      ih (fun t ht => hd t (by simp [ht])) (fun t ht => ha t (by simp [ht]))
    by_cases hw : inWeek now d = true
    · exact ⟨a :: xs, by simp [weeklyCollect, hdd, haa, hxs, hw]⟩
    · exact ⟨xs, by simp [weeklyCollect, hdd, hxs, hw]⟩

/-- The weekly aggregator cannot fault when every row's date and amount are
well-formed. -/
theorem weekly_isOk (now : Now) (sales : List Sale)
    (hd : ∀ s ∈ sales, (pyStrptime s.date).isSome)
    (h : ∀ s ∈ sales, (pyInt s.amountSold).isSome) :
    (weekly_sales_analysis now sales).isOk = true := by
  obtain ⟨xs, hxs⟩ := weeklyCollect_ok now sales hd h
  unfold weekly_sales_analysis
  rw [hxs]
  rfl

/-! Helper lemmas about the all-branches accumulator. -/

/-- A key listed in the accumulator's key sequence has a value. -/
theorem dictGet?_isSome_of_mem (acc : List (String × Int)) (k : String)
    (h : k ∈ acc.map Prod.fst) : ∃ v, dictGet? acc k = some v := by
  induction acc with
  | nil => simp at h
  | cons p rest ih =>
    obtain ⟨k', v'⟩ := p
    by_cases hk : k' = k
    · exact ⟨v', by simp [dictGet?, hk]⟩
    · have : k ∈ rest.map Prod.fst := by
        rcases List.mem_cons.mp h with h1 | h1
        · exact absurd h1.symm hk
        · exact h1
      obtain ⟨v, hv⟩ := ih this
      exact ⟨v, by simp [dictGet?, hk, hv]⟩

/-- A key with a value is listed in the accumulator's key sequence. -/
theorem mem_of_dictGet?_some (acc : List (String × Int)) (k : String) (v : Int)
    (h : dictGet? acc k = some v) : k ∈ acc.map Prod.fst := by
  induction acc with
  | nil => simp [dictGet?] at h
  | cons p rest ih =>
    obtain ⟨k', v'⟩ := p
    by_cases hk : k' = k
    · simp [hk]
    · rw [dictGet?, if_neg (by simpa using hk)] at h
      simp [ih h]

/-- Assigning to an existing key leaves the key sequence unchanged. -/
theorem dictSet_map_fst (acc : List (String × Int)) (k : String) (v w : Int)
    (h : dictGet? acc k = some w) :
    (dictSet acc k v).map Prod.fst = acc.map Prod.fst := by
  induction acc with
  | nil => simp [dictGet?] at h
  | cons p rest ih =>
    obtain ⟨k', v'⟩ := p
    by_cases hk : k' = k
    · simp [dictSet, hk]
    · rw [dictGet?, if_neg (by simpa using hk)] at h
      simp [dictSet, hk, ih h]

/-- Pointwise update is the identity on entries whose key is absent. -/
theorem map_update_of_not_mem (l : List (String × Int)) (k : String) (a : Int)
    (h : k ∉ l.map Prod.fst) :
    l.map (fun p => if p.1 = k then (p.1, p.2 + a) else p) = l := by
  induction l with
  | nil => rfl
  | cons p rest ih =>
    have hk : ¬p.1 = k := by
      intro hcontra
      exact h (by simp [hcontra])
    have hrest : k ∉ rest.map Prod.fst := fun hm => h (by simp [hm])
    simp [hk, ih hrest]

/-- With duplicate-free keys, assigning `v + a` to a key holding `v` is the
pointwise update that adds `a` at that key. -/
theorem dictSet_eq_map (acc : List (String × Int)) (k : String) (v a : Int)
    (hnod : (acc.map Prod.fst).Nodup) (hget : dictGet? acc k = some v) :
    dictSet acc k (v + a) =
      acc.map (fun p => if p.1 = k then (p.1, p.2 + a) else p) := by
  induction acc with
  | nil => simp [dictGet?] at hget
  | cons p rest ih =>
    obtain ⟨k', v'⟩ := p
    rw [List.map_cons, List.nodup_cons] at hnod
    by_cases hk : k' = k
    · rw [dictGet?, if_pos (by simpa using hk)] at hget
      have hv : v = v' := by simpa using hget.symm
      subst hv
      subst hk
      have hrest : k' ∉ rest.map Prod.fst := hnod.1
      simp [dictSet, map_update_of_not_mem rest k' a hrest]
    · rw [dictGet?, if_neg (by simpa using hk)] at hget
      simp [dictSet, hk, ih hnod.2 hget]

/-- Unfolding `totalFor` over a leading sale. -/
theorem totalFor_cons (k : String) (s : Sale) (rest : List Sale) :
    totalFor k (s :: rest) =
      (if s.branchId = k then (pyInt s.amountSold).getD 0 else 0) +
        totalFor k rest := by
  by_cases h : s.branchId = k <;> simp [totalFor, List.filter_cons, h]

/-- Main accumulation lemma: over a duplicate-free accumulator whose key set
covers every sale and with every amount well-formed, the sales loop adds each
branch's total onto that branch's entry, in place. -/
theorem accumSales_ok (sales : List Sale) (acc : List (String × Int))
    (hnod : (acc.map Prod.fst).Nodup)
    (hmem : ∀ s ∈ sales, s.branchId ∈ acc.map Prod.fst)
    (hparse : ∀ s ∈ sales, (pyInt s.amountSold).isSome) :
    accumSales acc sales =
      .ok (acc.map (fun p => (p.1, p.2 + totalFor p.1 sales))) := by
  induction sales generalizing acc with
  | nil => simp [accumSales, totalFor]
  | cons s rest ih =>
    obtain ⟨v, hv⟩ := dictGet?_isSome_of_mem acc s.branchId (hmem s (by simp))
    obtain ⟨a, ha⟩ := Option.isSome_iff_exists.mp (hparse s (by simp))
    have hstep : accumSale acc s = .ok (dictSet acc s.branchId (v + a)) := by
      simp [accumSale, hv, ha]
    have hkeys : (dictSet acc s.branchId (v + a)).map Prod.fst = acc.map Prod.fst :=
      dictSet_map_fst acc s.branchId (v + a) v hv
    rw [accumSales, hstep]
    show accumSales (dictSet acc s.branchId (v + a)) rest =
      Except.ok (acc.map (fun p => (p.1, p.2 + totalFor p.1 (s :: rest))))
    rw [ih (dictSet acc s.branchId (v + a)) (by rw [hkeys]; exact hnod)
      (fun t ht => by rw [hkeys]; exact hmem t (List.mem_cons_of_mem s ht))
      (fun t ht => hparse t (List.mem_cons_of_mem s ht))]
    rw [dictSet_eq_map acc s.branchId v a hnod hv, List.map_map]
    refine congrArg Except.ok (List.map_congr_left ?_)
    intro p hp
    by_cases hpk : p.1 = s.branchId
    · simp only [Function.comp_apply, if_pos hpk]
      rw [totalFor_cons, if_pos hpk.symm, ha]
      simp [add_assoc]
    · simp only [Function.comp_apply, if_neg hpk]
      rw [totalFor_cons, if_neg (fun hcontra => hpk hcontra.symm)]
      simp

/-- A successful loop step leaves the key sequence unchanged and certifies
that the sale's branch id was a key. -/
theorem accumSale_ok_keys (acc : List (String × Int)) (s : Sale)
    (acc2 : List (String × Int)) (h : accumSale acc s = .ok acc2) :
    acc2.map Prod.fst = acc.map Prod.fst ∧ s.branchId ∈ acc.map Prod.fst := by
  unfold accumSale at h
  cases hv : dictGet? acc s.branchId with
  | none => rw [hv] at h; exact absurd h (by simp)
  | some v =>
    rw [hv] at h
    cases ha : pyInt s.amountSold with
    | none => rw [ha] at h; exact absurd h (by simp)
    | some a =>
      rw [ha] at h
      have hacc2 : acc2 = dictSet acc s.branchId (v + a) := by
        simpa using h.symm
      subst hacc2
      exact ⟨dictSet_map_fst acc s.branchId (v + a) v hv,
        mem_of_dictGet?_some acc s.branchId v hv⟩

/-- A successful run of the whole sales loop certifies that every sale's
branch id was a key of the starting accumulator. -/
theorem accumSales_ok_mem (sales : List Sale) (acc r : List (String × Int))
    (h : accumSales acc sales = .ok r) :
    ∀ s ∈ sales, s.branchId ∈ acc.map Prod.fst := by
  induction sales generalizing acc with
  | nil => simp
  | cons s rest ih =>
    rw [accumSales] at h
    cases hs : accumSale acc s with
    | error e => rw [hs] at h; exact absurd h (by simp)
    | ok acc2 =>
      rw [hs] at h
      obtain ⟨hk, hm⟩ := accumSale_ok_keys acc s acc2 hs
      intro t ht
      rcases List.mem_cons.mp ht with h1 | h1
      · exact h1 ▸ hm
      · exact hk ▸ ih acc2 h t h1

/-- Assigning to an absent key appends the new entry. -/
theorem dictSet_of_not_mem (acc : List (String × Int)) (k : String) (v : Int)
    (h : k ∉ acc.map Prod.fst) : dictSet acc k v = acc ++ [(k, v)] := by
  induction acc with
  | nil => rfl
  | cons p rest ih =>
    obtain ⟨k', v'⟩ := p
    have hk : ¬k' = k := fun hcontra => h (by simp [hcontra])
    have hrest : k ∉ rest.map Prod.fst := fun hm => h (by simp [hm])
    simp [dictSet, hk, ih hrest]

/-- Building the zero accumulator over duplicate-free branch ids lists one
zero entry per branch, in container order. -/
theorem foldl_dictSet_zero (bs : List Branch) (acc : List (String × Int))
    (hnod : (bs.map Branch.branchId).Nodup)
    (hdisj : ∀ b ∈ bs, b.branchId ∉ acc.map Prod.fst) :
    bs.foldl (fun a b => dictSet a b.branchId 0) acc =
      acc ++ bs.map (fun b => (b.branchId, 0)) := by
  induction bs generalizing acc with
  | nil => simp
  | cons b rest ih =>
    rw [List.map_cons, List.nodup_cons] at hnod
    rw [List.foldl_cons, dictSet_of_not_mem acc b.branchId 0 (hdisj b (by simp))]
    rw [ih (acc ++ [(b.branchId, 0)]) hnod.2 ?_]
    · simp
    · intro b' hb'
      have h1 : b'.branchId ∉ acc.map Prod.fst :=
        hdisj b' (List.mem_cons_of_mem b hb')
      have h2 : b'.branchId ≠ b.branchId := by
        intro hcontra
        exact hnod.1 (hcontra ▸ List.mem_map_of_mem Branch.branchId hb')
      simp [h1, h2]

/-- With duplicate-free branch ids, the initial accumulator is the zero map in
Branch-container order. -/
theorem initAcc_of_nodup (bs : List Branch)
    (hnod : (bs.map Branch.branchId).Nodup) :
    initAcc bs = bs.map (fun b => (b.branchId, 0)) := by
  simpa [initAcc] using foldl_dictSet_zero bs [] hnod (by simp)

/-! Claim theorems. -/

/-- C1: counterevidence — executed against a branches container already
holding one persisted record, `AddBranchCommand.execute` re-appends the
loaded copy of that record, so the container afterwards holds the prior
record twice followed by the new record, instead of the prior records
followed by the single new record; `AddSaleCommand.execute` behaves the same
way on the sales container. -/
theorem C1_add_commands_duplicate_prior_records :
    AddBranchCommand.execute
        (some [BRANCHES_HEADERS, ["B1", "Main", "Colombo"]]) "B2" "Second" "Kandy" =
      .ok (some [BRANCHES_HEADERS, ["B1", "Main", "Colombo"],
        ["B1", "Main", "Colombo"], ["B2", "Second", "Kandy"]]) ∧
    AddSaleCommand.execute
        (some [SALES_HEADERS, ["B1", "P1", "100", "2024-01-01"]])
        "B2" "P2" "50" "2024-01-02" =
      .ok (some [SALES_HEADERS, ["B1", "P1", "100", "2024-01-01"],
        ["B1", "P1", "100", "2024-01-01"], ["B2", "P2", "50", "2024-01-02"]]) :=
  ⟨rfl, rfl⟩

/-- C2: counterevidence — run at noon of a Monday (ordinal day 8, the date
0001-01-08, 43200 seconds after midnight), the weekly analysis excludes the
sale dated exactly on that Monday (total 0, mean 0), because `start_of_week`
keeps the run's time-of-day while the sale's date string parses to that
Monday's midnight; the same sale is included when the run happens exactly at
midnight, and a sale dated the following Monday (0001-01-15) is excluded in
both cases. -/
theorem C2_monday_sale_excluded_except_at_midnight :
    weekly_sales_analysis ⟨8, 43200⟩ [⟨"B1", "P1", "100", "0001-01-08"⟩] =
      .ok (0, 0) ∧
    weekly_sales_analysis ⟨8, 0⟩ [⟨"B1", "P1", "100", "0001-01-08"⟩] =
      .ok (100, 100) ∧
    weekly_sales_analysis ⟨8, 43200⟩ [⟨"B1", "P1", "100", "0001-01-15"⟩] =
      .ok (0, 0) := by
  refine ⟨by decide, ?_, by decide⟩
  rw [show weekly_sales_analysis ⟨8, 0⟩ [⟨"B1", "P1", "100", "0001-01-08"⟩] =
    .ok (100, npMean [100]) from rfl]
  norm_num [npMean]

/-- C3: counterexample — the all-branches reporting command executed with an
empty Branch container and no Sale records raises an uncaught `ValueError`
while unpacking `zip(*monthly_sales.items())`, instead of resolving to a
no-data signal. -/
theorem C3_counterexample_all_branches_uncaught_fault :
    all_branches_monthly_sales_analysis [] [] = .error .unpackError := rfl

/-- C3 (amended): the per-branch, per-product and grand-total reporting
commands raise no fault whenever every row they parse carries a well-formed
integer amount, and the weekly command raises none when additionally every
row's date is well-formed (it `strptime`-parses every row's date, so a
malformed date faults it even on a row with a well-formed amount) — empty or
unmatched data resolves to the distinguishable no-data signal, or to zero
for the network-wide reports — but `all_branches_monthly_sales_analysis` is
excluded from the guarantee. -/
theorem C3_reporting_commands_resolve_no_data :
    (∀ (sales : List Sale) (branch_id : String),
      (∀ s ∈ sales, s.branchId = branch_id → (pyInt s.amountSold).isSome) →
      (monthly_sales_analysis sales branch_id).isOk = true) ∧
    (∀ (sales : List Sale) (product_id : String),
      (∀ s ∈ sales, s.productId = product_id → (pyInt s.amountSold).isSome) →
      (price_analysis sales product_id).isOk = true) ∧
    (∀ sales : List Sale, (∀ s ∈ sales, (pyInt s.amountSold).isSome) →
      (total_sales_amount_analysis sales).isOk = true) ∧
    (∀ (now : Now) (sales : List Sale),
      (∀ s ∈ sales, (pyStrptime s.date).isSome) →
      (∀ s ∈ sales, (pyInt s.amountSold).isSome) →
      (weekly_sales_analysis now sales).isOk = true) ∧
    (weekly_sales_analysis ⟨8, 0⟩
      [⟨"B1", "P1", "100", "notadate"⟩]).isOk = false ∧
    monthly_sales_analysis [] "B1" = .ok .noData ∧
    price_analysis [] "P1" = .ok .noData ∧
    total_sales_amount_analysis [] = .ok 0 ∧
    weekly_sales_analysis ⟨8, 0⟩ [] = .ok (0, 0) :=
  ⟨monthly_isOk, price_isOk, total_isOk, weekly_isOk, by decide, rfl, rfl, rfl, rfl⟩

/-- Witness for the amended C3 theorem at concrete inputs. -/
theorem C3_reporting_commands_resolve_no_data_witness :
    (monthly_sales_analysis [⟨"B1", "P1", "100", "0001-01-08"⟩] "B1").isOk = true ∧
    (price_analysis [⟨"B1", "P1", "100", "0001-01-08"⟩] "P9").isOk = true ∧
    (total_sales_amount_analysis [⟨"B1", "P1", "100", "0001-01-08"⟩]).isOk = true ∧
    (weekly_sales_analysis ⟨8, 0⟩
      [⟨"B1", "P1", "100", "0001-01-08"⟩]).isOk = true :=
  ⟨C3_reporting_commands_resolve_no_data.1 _ "B1" (by decide),
   C3_reporting_commands_resolve_no_data.2.1 _ "P9" (by decide),
   C3_reporting_commands_resolve_no_data.2.2.1 _ (by decide),
   C3_reporting_commands_resolve_no_data.2.2.2.1 ⟨8, 0⟩ _ (by decide) (by decide)⟩

/-- C4: the all-branches report starts from one zero entry per branch id,
adds each sale's amount into its branch's entry, faults on a sale whose
branch id is absent from the accumulator's keys, and returns the
(branch_id, total) pairs in the Branch container's enumeration order; on the
spec's example, Branches [B1, B2] with sales 100+200 for B1 and 50 for B2
yield [(B1, 300), (B2, 50)]. -/
theorem C4_all_branches_totals :
    (∀ (branches : List Branch) (sales : List Sale),
      (branches.map Branch.branchId).Nodup → branches ≠ [] →
      (∀ s ∈ sales, s.branchId ∈ branches.map Branch.branchId) →
      (∀ s ∈ sales, (pyInt s.amountSold).isSome) →
      all_branches_monthly_sales_analysis branches sales =
        .ok (branches.map (fun b => (b.branchId, totalFor b.branchId sales)))) ∧
    (∀ (branches : List Branch) (sales : List Sale),
      (∃ s ∈ sales, s.branchId ∉ (initAcc branches).map Prod.fst) →
      (all_branches_monthly_sales_analysis branches sales).isOk = false) ∧
    all_branches_monthly_sales_analysis
      [⟨"B1", "Main", "Colombo"⟩, ⟨"B2", "Second", "Kandy"⟩]
      [⟨"B1", "P1", "100", "2024-01-01"⟩, ⟨"B1", "P2", "200", "2024-01-02"⟩,
        ⟨"B2", "P1", "50", "2024-01-03"⟩] =
      .ok [("B1", 300), ("B2", 50)] := by
  refine ⟨?_, ?_, by decide⟩
  · intro branches sales hnod hne hmem hparse
    have hinit := initAcc_of_nodup branches hnod
    have hkeys : (initAcc branches).map Prod.fst = branches.map Branch.branchId := by
      rw [hinit, List.map_map]
      rfl
    have hval : accumSales (initAcc branches) sales =
        .ok (branches.map (fun b => (b.branchId, totalFor b.branchId sales))) := by
      rw [accumSales_ok sales (initAcc branches)
        (by rw [hkeys]; exact hnod)
        (fun s hs => by rw [hkeys]; exact hmem s hs)
        hparse]
      rw [hinit, List.map_map]
      refine congrArg Except.ok (List.map_congr_left ?_)
      intro b hb
      simp
    unfold all_branches_monthly_sales_analysis
    rw [hval]
    show (if (branches.map
        (fun b => (b.branchId, totalFor b.branchId sales))).isEmpty then
        Except.error PyError.unpackError
      else Except.ok (branches.map
        (fun b => (b.branchId, totalFor b.branchId sales)))) = _
    rw [if_neg ?_]
    cases branches with
    | nil => exact absurd rfl hne
    | cons b bs => simp
  · intro branches sales hex
    obtain ⟨s, hs, hnot⟩ := hex
    unfold all_branches_monthly_sales_analysis
    cases hacc : accumSales (initAcc branches) sales with
    | error e => rfl
    | ok r =>
      exact absurd (accumSales_ok_mem sales (initAcc branches) r hacc s hs) hnot

/-- Witness for the C4 theorem at concrete inputs. -/
theorem C4_all_branches_totals_witness :
    all_branches_monthly_sales_analysis [⟨"B1", "Main", "Colombo"⟩]
      [⟨"B1", "P1", "100", "2024-01-01"⟩] = .ok [("B1", 100)] ∧
    (all_branches_monthly_sales_analysis []
      [⟨"B9", "P1", "100", "2024-01-01"⟩]).isOk = false := by
  constructor
  · have h := C4_all_branches_totals.1 [⟨"B1", "Main", "Colombo"⟩]
      [⟨"B1", "P1", "100", "2024-01-01"⟩] (by decide) (by decide) (by decide) (by decide)
    rw [h]
    decide
  · exact C4_all_branches_totals.2.1 [] [⟨"B9", "P1", "100", "2024-01-01"⟩]
      ⟨⟨"B9", "P1", "100", "2024-01-01"⟩, by decide, by decide⟩

/-- C5: appending one record to an initially-absent container and loading
returns exactly that record with the header excluded, and any sequence of N
single-record appends loads back as those records in append order, never
reordered or deduplicated. -/
theorem C5_append_load_round_trip :
    (∀ (hdr R : List String), hdr ≠ [] →
      CSVLoader.load_data (save_data none [R] (some hdr)) = .ok [R]) ∧
    (∀ (hdr : List String) (rs : List (List String)), hdr ≠ [] →
      CSVLoader.load_data
        (rs.foldl (fun f r => save_data f [r] (some hdr)) none) = .ok rs) := by
  constructor
  · intro hdr R hne
    rw [save_none_cons [R] hdr hne]
    rfl
  · intro hdr rs hne
    cases rs with
    | nil => rfl
    | cons r rest =>
      rw [List.foldl_cons, save_none_cons [r] hdr hne, foldl_save_single]
      rfl

/-- Witness for the C5 theorem; the appended sequence repeats a record, and
the repetition survives the round trip. -/
theorem C5_append_load_round_trip_witness :
    CSVLoader.load_data (save_data none [["B1", "Main", "Colombo"]]
      (some BRANCHES_HEADERS)) = .ok [["B1", "Main", "Colombo"]] ∧
    CSVLoader.load_data
      ([["r1"], ["r2"], ["r1"]].foldl
        (fun f r => save_data f [r] (some BRANCHES_HEADERS)) none) =
      .ok [["r1"], ["r2"], ["r1"]] :=
  ⟨C5_append_load_round_trip.1 BRANCHES_HEADERS ["B1", "Main", "Colombo"] (by decide),
   C5_append_load_round_trip.2 BRANCHES_HEADERS [["r1"], ["r2"], ["r1"]] (by decide)⟩

/-- C6: the header row is written exactly once — the first append on an
absent container writes the header before its rows, a second append appends
only its rows, and once the container exists any sequence of further appends
keeps the stable header at the head, before all data rows, writing no new
header row. -/
theorem C6_header_written_once :
    (∀ (hdr : List String) (d1 d2 : List (List String)), hdr ≠ [] →
      save_data (save_data none d1 (some hdr)) d2 (some hdr) =
        some (hdr :: (d1 ++ d2))) ∧
    (∀ (c d : List (List String)) (hs : Option (List String)),
      save_data (some c) d hs = some (c ++ d)) ∧
    (∀ (hdr : List String) (rest : List (List String))
        (batches : List (List (List String) × Option (List String))),
      batches.foldl (fun f b => save_data f b.1 b.2) (some (hdr :: rest)) =
        some (hdr :: (rest ++ (batches.map Prod.fst).flatten))) := by
  refine ⟨?_, fun c d hs => rfl, ?_⟩
  · intro hdr d1 d2 hne
    rw [save_none_cons d1 hdr hne]
    rfl
  · intro hdr rest batches
    simpa using foldl_save_batches batches (hdr :: rest)

/-- Witness for the C6 theorem at concrete inputs. -/
theorem C6_header_written_once_witness :
    save_data (save_data none [["r1"]] (some BRANCHES_HEADERS)) [["r2"]]
      (some BRANCHES_HEADERS) = some [BRANCHES_HEADERS, ["r1"], ["r2"]] :=
  C6_header_written_once.1 BRANCHES_HEADERS [["r1"]] [["r2"]] (by decide)

/-- C7: for every container name the factory resolves to a known kind,
loading a container that does not yet exist on durable storage returns the
empty sequence and raises no fault. -/
theorem C7_load_missing_container_empty :
    ∀ (fs : String → FileContent) (file_name : String),
      (DataLoaderFactory.create_loader file_name).isOk = true →
      fs file_name = none →
      load_data fs file_name = .ok [] := by
  intro fs file_name hok habs
  unfold load_data
  cases hc : DataLoaderFactory.create_loader file_name with
  | error e =>
    rw [hc] at hok
    simp [Except.isOk, Except.toBool] at hok
  | ok m =>
    show CSVLoader.load_data (fs m) = .ok []
    rw [create_loader_ok_eq file_name m hc, habs]
    rfl

/-- Witness for the C7 theorem on the sales container of an empty file
system. -/
theorem C7_load_missing_container_empty_witness :
    load_data (fun _ => none) "sales.csv" = .ok [] :=
  C7_load_missing_container_empty (fun _ => none) "sales.csv" (by decide) rfl

/-- C8: the price analysis filters by exact product id and computes mean,
max, min and median — the middle of the sorted amounts, averaging the two
central values on even counts — over the matching amounts; zero matches
yield the no-data signal with no numeric computation; on the spec's example
the matching amounts [100, 50] give mean 75, max 100, min 50, median 75. -/
theorem C8_price_statistics :
    (∀ (sales : List Sale) (product_id : String) (xs : List Int),
      mapPyInt (sales.filter (fun s => s.productId == product_id)) = some xs →
      xs ≠ [] →
      price_analysis sales product_id =
        .ok (.stats (npMean xs) (npMax xs) (npMin xs) (npMedian xs))) ∧
    (∀ (sales : List Sale) (product_id : String),
      sales.filter (fun s => s.productId == product_id) = [] →
      price_analysis sales product_id = .ok .noData) ∧
    price_analysis
      [⟨"B1", "P1", "100", "2024-01-01"⟩, ⟨"B1", "P2", "200", "2024-01-02"⟩,
        ⟨"B2", "P1", "50", "2024-01-03"⟩] "P1" = .ok (.stats 75 100 50 75) := by
  refine ⟨?_, ?_, ?_⟩
  · intro sales product_id xs hxs hne
    unfold price_analysis
    rw [hxs]
    simp [List.isEmpty_iff, hne]
  · intro sales product_id hfil
    unfold price_analysis
    rw [hfil]
    rfl
  · rw [show price_analysis
      [⟨"B1", "P1", "100", "2024-01-01"⟩, ⟨"B1", "P2", "200", "2024-01-02"⟩,
        ⟨"B2", "P1", "50", "2024-01-03"⟩] "P1" =
      .ok (.stats (npMean [100, 50]) (npMax [100, 50]) (npMin [100, 50])
        (npMedian [100, 50])) from rfl]
    norm_num [npMean, npMax, npMin, npMedian, sortInt, insertSorted, List.getD]

/-- Witness for the C8 theorem at concrete inputs. -/
theorem C8_price_statistics_witness :
    price_analysis [⟨"B1", "P1", "100", "2024-01-01"⟩] "P1" =
      .ok (.stats 100 100 100 100) ∧
    price_analysis [⟨"B1", "P2", "200", "2024-01-02"⟩] "P1" = .ok .noData := by
  constructor
  · have h := C8_price_statistics.1 [⟨"B1", "P1", "100", "2024-01-01"⟩] "P1" [100]
      (by decide) (by decide)
    rw [h]
    simp [npMean, npMax, npMin, npMedian, sortInt, insertSorted, List.getD]
  · exact C8_price_statistics.2.1 [⟨"B1", "P2", "200", "2024-01-02"⟩] "P1" (by decide)

/-- C9: with an empty Branch container the all-branches report always
faults: with no Sale records the empty accumulator makes the series
unpacking raise, and with any sales the first accumulation step raises; the
report can never run successfully before at least one branch exists. -/
theorem C9_empty_branches_always_faults :
    (∀ sales : List Sale,
      (all_branches_monthly_sales_analysis [] sales).isOk = false) ∧
    all_branches_monthly_sales_analysis [] [] = .error .unpackError := by
  refine ⟨?_, rfl⟩
  intro sales
  cases sales with
  | nil => rfl
  | cons s rest => rfl

/-- C10: `monthly_sales_analysis` and `price_analysis` parse the amount
field only of rows that pass the branch/product filter, so they succeed
whenever every filter-matching row carries a well-formed integer amount,
regardless of malformed amounts on non-matching rows. -/
theorem C10_parse_only_after_filter :
    (∀ (sales : List Sale) (branch_id : String),
      (∀ s ∈ sales, s.branchId = branch_id → (pyInt s.amountSold).isSome) →
      (monthly_sales_analysis sales branch_id).isOk = true) ∧
    (∀ (sales : List Sale) (product_id : String),
      (∀ s ∈ sales, s.productId = product_id → (pyInt s.amountSold).isSome) →
      (price_analysis sales product_id).isOk = true) :=
  ⟨monthly_isOk, price_isOk⟩

/-- Witness for the C10 theorem: a malformed amount on a non-matching row
faults neither aggregator. -/
theorem C10_parse_only_after_filter_witness :
    (monthly_sales_analysis [⟨"B9", "P9", "junk", "2024-01-01"⟩, ⟨"B1", "P1", "100", "2024-01-02"⟩]
      "B1").isOk = true ∧
    (price_analysis [⟨"B9", "P9", "junk", "2024-01-01"⟩, ⟨"B1", "P1", "100", "2024-01-02"⟩]
      "P1").isOk = true :=
  ⟨C10_parse_only_after_filter.1 _ "B1" (by decide),
   C10_parse_only_after_filter.2 _ "P1" (by decide)⟩
